import Mathlib

set_option maxRecDepth 100000

/-!
A shallow embedding of the SineWave Arduino program (src/SineWave.ino).

The program precomputes one full sine cycle as a table of 8-bit samples
(`SINE_FULL_WAVE`, in variants of 256, 512 and 1024 entries selected by the
compile-time constant `SAMPLE_COUNT`), and on every Timer2 overflow interrupt
writes the next sample to the PWM compare register `OCR2A`, advancing a static
`uint16_t` phase index `i` and wrapping it with `i &= SAMPLE_COUNT - 1`.

The machine model keeps the observable state touched by the program: the phase
index, the compare register and the configuration registers written by
`setup`.  The ISR body, the empty `loop`, the `#if` configuration chains and
the documented frequency law are embedded below, and the numbered theorems at
the end of the file settle the specification claims against them.
-/

/-- The 256-entry sine sample table `SINE_FULL_WAVE` compiled in when
`SAMPLE_COUNT == 256` (src/SineWave.ino). -/
def SINE_FULL_WAVE_256 : List Nat :=
  [
    128, 131, 134, 137, 140, 143, 146, 149, 152, 155, 158, 162, 165, 167, 170, 173,
    176, 179, 182, 185, 188, 190, 193, 196, 198, 201, 203, 206, 208, 211, 213, 215,
    218, 220, 222, 224, 226, 228, 230, 232, 234, 235, 237, 238, 240, 241, 243, 244,
    245, 246, 248, 249, 250, 250, 251, 252, 253, 253, 254, 254, 254, 255, 255, 255,
    255, 255, 255, 255, 254, 254, 254, 253, 253, 252, 251, 250, 250, 249, 248, 246,
    245, 244, 243, 241, 240, 238, 237, 235, 234, 232, 230, 228, 226, 224, 222, 220,
    218, 215, 213, 211, 208, 206, 203, 201, 198, 196, 193, 190, 188, 185, 182, 179,
    176, 173, 170, 167, 165, 162, 158, 155, 152, 149, 146, 143, 140, 137, 134, 131,
    128, 124, 121, 118, 115, 112, 109, 106, 103, 100, 97, 93, 90, 88, 85, 82,
    79, 76, 73, 70, 67, 65, 62, 59, 57, 54, 52, 49, 47, 44, 42, 40,
    37, 35, 33, 31, 29, 27, 25, 23, 21, 20, 18, 17, 15, 14, 12, 11,
    10, 9, 7, 6, 5, 5, 4, 3, 2, 2, 1, 1, 1, 0, 0, 0,
    0, 0, 0, 0, 1, 1, 1, 2, 2, 3, 4, 5, 5, 6, 7, 9,
    10, 11, 12, 14, 15, 17, 18, 20, 21, 23, 25, 27, 29, 31, 33, 35,
    37, 40, 42, 44, 47, 49, 52, 54, 57, 59, 62, 65, 67, 70, 73, 76,
    79, 82, 85, 88, 90, 93, 97, 100, 103, 106, 109, 112, 115, 118, 121, 124
  ]

/-- The 512-entry sine sample table `SINE_FULL_WAVE` compiled in when
`SAMPLE_COUNT == 512` (src/SineWave.ino). -/
def SINE_FULL_WAVE_512 : List Nat :=
  [
    128, 129, 131, 132, 134, 135, 137, 138, 140, 142, 143, 145, 146, 148, 149, 151,
    152, 154, 155, 157, 158, 160, 162, 163, 165, 166, 167, 169, 170, 172, 173, 175,
    176, 178, 179, 181, 182, 183, 185, 186, 188, 189, 190, 192, 193, 194, 196, 197,
    198, 200, 201, 202, 203, 205, 206, 207, 208, 210, 211, 212, 213, 214, 215, 217,
    218, 219, 220, 221, 222, 223, 224, 225, 226, 227, 228, 229, 230, 231, 232, 233,
    234, 234, 235, 236, 237, 238, 238, 239, 240, 241, 241, 242, 243, 243, 244, 245,
    245, 246, 246, 247, 248, 248, 249, 249, 250, 250, 250, 251, 251, 252, 252, 252,
    253, 253, 253, 253, 254, 254, 254, 254, 254, 255, 255, 255, 255, 255, 255, 255,
    255, 255, 255, 255, 255, 255, 255, 255, 254, 254, 254, 254, 254, 253, 253, 253,
    253, 252, 252, 252, 251, 251, 250, 250, 250, 249, 249, 248, 248, 247, 246, 246,
    245, 245, 244, 243, 243, 242, 241, 241, 240, 239, 238, 238, 237, 236, 235, 234,
    234, 233, 232, 231, 230, 229, 228, 227, 226, 225, 224, 223, 222, 221, 220, 219,
    218, 217, 215, 214, 213, 212, 211, 210, 208, 207, 206, 205, 203, 202, 201, 200,
    198, 197, 196, 194, 193, 192, 190, 189, 188, 186, 185, 183, 182, 181, 179, 178,
    176, 175, 173, 172, 170, 169, 167, 166, 165, 163, 162, 160, 158, 157, 155, 154,
    152, 151, 149, 148, 146, 145, 143, 142, 140, 138, 137, 135, 134, 132, 131, 129,
    128, 126, 124, 123, 121, 120, 118, 117, 115, 113, 112, 110, 109, 107, 106, 104,
    103, 101, 100, 98, 97, 95, 93, 92, 90, 89, 88, 86, 85, 83, 82, 80,
    79, 77, 76, 74, 73, 72, 70, 69, 67, 66, 65, 63, 62, 61, 59, 58,
    57, 55, 54, 53, 52, 50, 49, 48, 47, 45, 44, 43, 42, 41, 40, 38,
    37, 36, 35, 34, 33, 32, 31, 30, 29, 28, 27, 26, 25, 24, 23, 22,
    21, 21, 20, 19, 18, 17, 17, 16, 15, 14, 14, 13, 12, 12, 11, 10,
    10, 9, 9, 8, 7, 7, 6, 6, 5, 5, 5, 4, 4, 3, 3, 3,
    2, 2, 2, 2, 1, 1, 1, 1, 1, 0, 0, 0, 0, 0, 0, 0,
    0, 0, 0, 0, 0, 0, 0, 0, 1, 1, 1, 1, 1, 2, 2, 2,
    2, 3, 3, 3, 4, 4, 5, 5, 5, 6, 6, 7, 7, 8, 9, 9,
    10, 10, 11, 12, 12, 13, 14, 14, 15, 16, 17, 17, 18, 19, 20, 21,
    21, 22, 23, 24, 25, 26, 27, 28, 29, 30, 31, 32, 33, 34, 35, 36,
    37, 38, 40, 41, 42, 43, 44, 45, 47, 48, 49, 50, 52, 53, 54, 55,
    57, 58, 59, 61, 62, 63, 65, 66, 67, 69, 70, 72, 73, 74, 76, 77,
    79, 80, 82, 83, 85, 86, 88, 89, 90, 92, 93, 95, 97, 98, 100, 101,
    103, 104, 106, 107, 109, 110, 112, 113, 115, 117, 118, 120, 121, 123, 124, 126
  ]

/-- The 1024-entry sine sample table `SINE_FULL_WAVE` compiled in when
`SAMPLE_COUNT == 1024` (src/SineWave.ino). -/
def SINE_FULL_WAVE_1024 : List Nat :=
  [
    128, 128, 129, 130, 131, 131, 132, 133, 134, 135, 135, 136, 137, 138, 138, 139,
    140, 141, 142, 142, 143, 144, 145, 145, 146, 147, 148, 149, 149, 150, 151, 152,
    152, 153, 154, 155, 155, 156, 157, 158, 158, 159, 160, 161, 162, 162, 163, 164,
    165, 165, 166, 167, 167, 168, 169, 170, 170, 171, 172, 173, 173, 174, 175, 176,
    176, 177, 178, 178, 179, 180, 181, 181, 182, 183, 183, 184, 185, 186, 186, 187,
    188, 188, 189, 190, 190, 191, 192, 192, 193, 194, 194, 195, 196, 196, 197, 198,
    198, 199, 200, 200, 201, 202, 202, 203, 203, 204, 205, 205, 206, 207, 207, 208,
    208, 209, 210, 210, 211, 211, 212, 213, 213, 214, 214, 215, 215, 216, 217, 217,
    218, 218, 219, 219, 220, 220, 221, 221, 222, 222, 223, 224, 224, 225, 225, 226,
    226, 227, 227, 228, 228, 228, 229, 229, 230, 230, 231, 231, 232, 232, 233, 233,
    234, 234, 234, 235, 235, 236, 236, 236, 237, 237, 238, 238, 238, 239, 239, 240,
    240, 240, 241, 241, 241, 242, 242, 242, 243, 243, 243, 244, 244, 244, 245, 245,
    245, 246, 246, 246, 246, 247, 247, 247, 248, 248, 248, 248, 249, 249, 249, 249,
    250, 250, 250, 250, 250, 251, 251, 251, 251, 251, 252, 252, 252, 252, 252, 252,
    253, 253, 253, 253, 253, 253, 253, 254, 254, 254, 254, 254, 254, 254, 254, 254,
    254, 254, 255, 255, 255, 255, 255, 255, 255, 255, 255, 255, 255, 255, 255, 255,
    255, 255, 255, 255, 255, 255, 255, 255, 255, 255, 255, 255, 255, 255, 255, 254,
    254, 254, 254, 254, 254, 254, 254, 254, 254, 254, 253, 253, 253, 253, 253, 253,
    253, 252, 252, 252, 252, 252, 252, 251, 251, 251, 251, 251, 250, 250, 250, 250,
    250, 249, 249, 249, 249, 248, 248, 248, 248, 247, 247, 247, 246, 246, 246, 246,
    245, 245, 245, 244, 244, 244, 243, 243, 243, 242, 242, 242, 241, 241, 241, 240,
    240, 240, 239, 239, 238, 238, 238, 237, 237, 236, 236, 236, 235, 235, 234, 234,
    234, 233, 233, 232, 232, 231, 231, 230, 230, 229, 229, 228, 228, 228, 227, 227,
    226, 226, 225, 225, 224, 224, 223, 222, 222, 221, 221, 220, 220, 219, 219, 218,
    218, 217, 217, 216, 215, 215, 214, 214, 213, 213, 212, 211, 211, 210, 210, 209,
    208, 208, 207, 207, 206, 205, 205, 204, 203, 203, 202, 202, 201, 200, 200, 199,
    198, 198, 197, 196, 196, 195, 194, 194, 193, 192, 192, 191, 190, 190, 189, 188,
    188, 187, 186, 186, 185, 184, 183, 183, 182, 181, 181, 180, 179, 178, 178, 177,
    176, 176, 175, 174, 173, 173, 172, 171, 170, 170, 169, 168, 167, 167, 166, 165,
    165, 164, 163, 162, 162, 161, 160, 159, 158, 158, 157, 156, 155, 155, 154, 153,
    152, 152, 151, 150, 149, 149, 148, 147, 146, 145, 145, 144, 143, 142, 142, 141,
    140, 139, 138, 138, 137, 136, 135, 135, 134, 133, 132, 131, 131, 130, 129, 128,
    128, 127, 126, 125, 124, 124, 123, 122, 121, 120, 120, 119, 118, 117, 117, 116,
    115, 114, 113, 113, 112, 111, 110, 110, 109, 108, 107, 106, 106, 105, 104, 103,
    103, 102, 101, 100, 100, 99, 98, 97, 97, 96, 95, 94, 93, 93, 92, 91,
    90, 90, 89, 88, 88, 87, 86, 85, 85, 84, 83, 82, 82, 81, 80, 79,
    79, 78, 77, 77, 76, 75, 74, 74, 73, 72, 72, 71, 70, 69, 69, 68,
    67, 67, 66, 65, 65, 64, 63, 63, 62, 61, 61, 60, 59, 59, 58, 57,
    57, 56, 55, 55, 54, 53, 53, 52, 52, 51, 50, 50, 49, 48, 48, 47,
    47, 46, 45, 45, 44, 44, 43, 42, 42, 41, 41, 40, 40, 39, 38, 38,
    37, 37, 36, 36, 35, 35, 34, 34, 33, 33, 32, 31, 31, 30, 30, 29,
    29, 28, 28, 27, 27, 27, 26, 26, 25, 25, 24, 24, 23, 23, 22, 22,
    21, 21, 21, 20, 20, 19, 19, 19, 18, 18, 17, 17, 17, 16, 16, 15,
    15, 15, 14, 14, 14, 13, 13, 13, 12, 12, 12, 11, 11, 11, 10, 10,
    10, 9, 9, 9, 9, 8, 8, 8, 7, 7, 7, 7, 6, 6, 6, 6,
    5, 5, 5, 5, 5, 4, 4, 4, 4, 4, 3, 3, 3, 3, 3, 3,
    2, 2, 2, 2, 2, 2, 2, 1, 1, 1, 1, 1, 1, 1, 1, 1,
    1, 1, 0, 0, 0, 0, 0, 0, 0, 0, 0, 0, 0, 0, 0, 0,
    0, 0, 0, 0, 0, 0, 0, 0, 0, 0, 0, 0, 0, 0, 0, 1,
    1, 1, 1, 1, 1, 1, 1, 1, 1, 1, 2, 2, 2, 2, 2, 2,
    2, 3, 3, 3, 3, 3, 3, 4, 4, 4, 4, 4, 5, 5, 5, 5,
    5, 6, 6, 6, 6, 7, 7, 7, 7, 8, 8, 8, 9, 9, 9, 9,
    10, 10, 10, 11, 11, 11, 12, 12, 12, 13, 13, 13, 14, 14, 14, 15,
    15, 15, 16, 16, 17, 17, 17, 18, 18, 19, 19, 19, 20, 20, 21, 21,
    21, 22, 22, 23, 23, 24, 24, 25, 25, 26, 26, 27, 27, 27, 28, 28,
    29, 29, 30, 30, 31, 31, 32, 33, 33, 34, 34, 35, 35, 36, 36, 37,
    37, 38, 38, 39, 40, 40, 41, 41, 42, 42, 43, 44, 44, 45, 45, 46,
    47, 47, 48, 48, 49, 50, 50, 51, 52, 52, 53, 53, 54, 55, 55, 56,
    57, 57, 58, 59, 59, 60, 61, 61, 62, 63, 63, 64, 65, 65, 66, 67,
    67, 68, 69, 69, 70, 71, 72, 72, 73, 74, 74, 75, 76, 77, 77, 78,
    79, 79, 80, 81, 82, 82, 83, 84, 85, 85, 86, 87, 88, 88, 89, 90,
    90, 91, 92, 93, 93, 94, 95, 96, 97, 97, 98, 99, 100, 100, 101, 102,
    103, 103, 104, 105, 106, 106, 107, 108, 109, 110, 110, 111, 112, 113, 113, 114,
    115, 116, 117, 117, 118, 119, 120, 120, 121, 122, 123, 124, 124, 125, 126, 127
  ]

namespace SineWave

open Real Finset

/-- Machine state visible to the program: the static phase index `i` of the
ISR (a `uint16_t`, value `< 2 ^ 16`), the Timer2 compare register `OCR2A`
(8-bit) and the configuration registers written during `setup` (8-bit each). -/
structure MachineState where
  i : Nat
  OCR2A : Nat
  TCCR2A : Nat
  TCCR2B : Nat
  TIMSK2 : Nat
  DDRB : Nat
deriving DecidableEq, Repr

/-- `ISR(TIMER2_OVF_vect)` (src/SineWave.ino lines 309-314): writes
`SINE_FULL_WAVE[i]` into `OCR2A` (an 8-bit register, hence `% 256`), then
increments the `uint16_t` index (wrapping at `2 ^ 16`), then applies the
rollover mask `i &= SAMPLE_COUNT - 1`.  The table and mask are the
compile-time parameters `table` and `SAMPLE_COUNT - 1`. -/
def isr (table : List Nat) (mask : Nat) (s : MachineState) : MachineState :=
  { s with
    OCR2A := table.getD s.i 0 % 256,
    i := ((s.i + 1) % 2 ^ 16) &&& mask }

/-- `n` consecutive timer-overflow invocations of the ISR. -/
def isrRun (table : List Nat) (mask : Nat) : MachineState → Nat → MachineState
  | s, 0 => s
  | s, n + 1 => isrRun table mask (isr table mask s) n

/-- The sequence of phase-index values read (at entry) by `n` consecutive
ISR invocations starting from state `s`. -/
def idxTrace (table : List Nat) (mask : Nat) : MachineState → Nat → List Nat
  | _, 0 => []
  | s, n + 1 => s.i :: idxTrace table mask (isr table mask s) n

/-- The sequence of values written to `OCR2A` by `n` consecutive ISR
invocations starting from state `s`. -/
def outTrace (table : List Nat) (mask : Nat) : MachineState → Nat → List Nat
  | _, 0 => []
  | s, n + 1 => (isr table mask s).OCR2A :: outTrace table mask (isr table mask s) n

/-- One ISR invocation as a relation between the pre-state, the value written
to the compare register, and the post-state — the relational rendering of
`isr`, used to state determinism of the sampler. -/
inductive IsrStep (table : List Nat) (mask : Nat) : MachineState → Nat → MachineState → Prop where
  | step : ∀ (s s' : MachineState) (o : Nat),
      o = table.getD s.i 0 % 256 →
      s' = { s with OCR2A := o, i := ((s.i + 1) % 2 ^ 16) &&& mask } →
      IsrStep table mask s o s'

/-- A run of consecutive ISR invocations as a relation between the starting
state, the sequence of values written to the compare register, and the final
state. -/
inductive IsrRunSeq (table : List Nat) (mask : Nat) : MachineState → List Nat → MachineState → Prop where
  | nil : ∀ s, IsrRunSeq table mask s [] s
  | cons : ∀ {s s₁ s₂ : MachineState} {o : Nat} {os : List Nat},
      IsrStep table mask s o s₁ → IsrRunSeq table mask s₁ os s₂ →
      IsrRunSeq table mask s (o :: os) s₂

/-- The list of absolute differences between adjacent table entries. -/
def adjacentSteps (t : List Nat) : List Nat := List.zipWith Nat.dist t t.tail

/-- Strict tail-recursive maximum of a list of naturals. -/
def listMax : List Nat → Nat → Nat
  | [], acc => acc
  | a :: l, acc => if acc ≤ a then listMax l a else listMax l acc

/-- The largest difference between two adjacent table entries. -/
def maxAdjacentStep (t : List Nat) : Nat := listMax (adjacentSteps t) 0

/-- The absolute difference between the first and the last table entry —
the jump the output makes at the cycle wrap boundary. -/
def wrapGap (t : List Nat) : Nat := Nat.dist (t.getD 0 0) (t.getD (t.length - 1) 0)

/-- The CPU clock of the target board (16 MHz), as used by the frequency
table in the source header. -/
def F_CPU : Nat := 16000000

/-- The foreground `loop()` (src/SineWave.ino lines 305-306): its body is
empty, so it leaves the machine state unchanged. -/
def loopBody (s : MachineState) : MachineState := s

/-- The `#if SAMPLE_COUNT == ...` chain (src/SineWave.ino lines 85-235):
each supported value selects its table; every other value hits
`#error "Valid values for SAMPLE_COUNT are: 256, 512, 1024"`, modelled as
`none` (a build failure, hence no compiled table). -/
def tableFor (sampleCount : Nat) : Option (List Nat) :=
  if sampleCount = 256 then some SINE_FULL_WAVE_256
  else if sampleCount = 512 then some SINE_FULL_WAVE_512
  else if sampleCount = 1024 then some SINE_FULL_WAVE_1024
  else none

/-- The `#if PRESCALER == ...` chain in `setup` (src/SineWave.ino lines
276-292): each supported prescaler maps to its `(CS22, CS21, CS20)` clock
select bits of `TCCR2B`; every other value hits
`#error "Valid PRESCALER values for TIMER2 are: 1, 8, 32, 64, 128, 256, 1024"`,
modelled as `none` (a build failure). -/
def prescalerBits (prescaler : Nat) : Option (Bool × Bool × Bool) :=
  if prescaler = 1 then some (false, false, true)
  else if prescaler = 8 then some (false, true, false)
  else if prescaler = 32 then some (false, true, true)
  else if prescaler = 64 then some (true, false, false)
  else if prescaler = 128 then some (true, false, true)
  else if prescaler = 256 then some (true, true, false)
  else if prescaler = 1024 then some (true, true, true)
  else none

/-- Pack the three clock-select bits into the low bits of `TCCR2B`
(`CS22` is bit 2, `CS21` bit 1, `CS20` bit 0). -/
def csValue (b : Bool × Bool × Bool) : Nat :=
  (if b.1 then 4 else 0) + (if b.2.1 then 2 else 0) + (if b.2.2 then 1 else 0)

/-- `setup()` (src/SineWave.ino lines 238-302): clears `OCR2A`, programs
`TCCR2A` with `COM2A1` (bit 7), `WGM21` (bit 1) and `WGM20` (bit 0) for
non-inverting Fast-PWM, writes the prescaler clock-select bits to `TCCR2B`,
sets `DDRB` bit 3 (pin 11 as output) and enables the Timer2 overflow
interrupt (`TIMSK2 = 1 << TOIE2`).  The phase index is a zero-initialized
static, so it is 0 when the first overflow fires. -/
def setup (cs : Bool × Bool × Bool) (s : MachineState) : MachineState :=
  { s with
    OCR2A := 0,
    TCCR2A := 2 ^ 7 + 2 ^ 1 + 2 ^ 0,
    TCCR2B := csValue cs,
    TIMSK2 := 1,
    DDRB := s.DDRB ||| 2 ^ 3 }

/-- The state at the first timer overflow after reset: registers configured
by `setup`, phase index at its zero initializer. -/
def initialState (cs : Bool × Bool × Bool) : MachineState :=
  setup cs { i := 0, OCR2A := 0, TCCR2A := 0, TCCR2B := 0, TIMSK2 := 0, DDRB := 0 }

/-- The sine-wave frequency law documented in the source header
(src/SineWave.ino lines 37-55): `F_CPU / (prescaler * 2 ^ timerBits * sampleCount)`
with an 8-bit timer, as an exact rational in Hz. -/
def sineFreq (fcpu prescaler sampleCount : Nat) : ℚ :=
  (fcpu : ℚ) / ((prescaler : ℚ) * 2 ^ 8 * (sampleCount : ℚ))

/-! ### Verified evaluation of the table-generation formula

The samples approximate `round(127.5 + 127.5 * sin(2 * pi * i / N))`.  To
check the 1792 compiled-in entries against this transcendental formula we
bound `sin` on the grid `pi * j / 512`, `j < 1024`, by reducing each angle
to the first quadrant, halving it into `[0, pi/4]`, and enclosing `sin` and
`cos` of the half angle between degree-11 and degree-10 Taylor polynomials
whose remainder comes from `Complex.exp_bound`.  All interval arithmetic is
scaled-natural-number arithmetic (scale `SCALE = 10 ^ 18`) with directed
rounding, so the per-entry check is a decidable computation. -/

noncomputable def sinPoly (x : ℝ) : ℝ :=
  x - x ^ 3 / 6 + x ^ 5 / 120 - x ^ 7 / 5040 + x ^ 9 / 362880 - x ^ 11 / 39916800

noncomputable def cosPoly (x : ℝ) : ℝ :=
  1 - x ^ 2 / 2 + x ^ 4 / 24 - x ^ 6 / 720 + x ^ 8 / 40320 - x ^ 10 / 3628800

def SCALE : ℕ := 10 ^ 18

def cdiv (a b : ℕ) : ℕ := (a + b - 1) / b

def mulLo (a b : ℕ) : ℕ := a * b / SCALE

def mulHi (a b : ℕ) : ℕ := cdiv (a * b) SCALE

def powLo (a : ℕ) : ℕ → ℕ
  | 0 => SCALE
  | k + 1 => mulLo a (powLo a k)

def powHi (a : ℕ) : ℕ → ℕ
  | 0 => SCALE
  | k + 1 => mulHi a (powHi a k)

def IsLB (a : ℕ) (x : ℝ) : Prop := (a : ℝ) ≤ SCALE * x

def IsUB (a : ℕ) (x : ℝ) : Prop := SCALE * x ≤ (a : ℝ)

def uLo (m : ℕ) : ℕ := 3141592 * m * SCALE / 1024000000

def uHi (m : ℕ) : ℕ := cdiv (3141593 * m * SCALE) 1024000000

def errHi : ℕ := cdiv (SCALE * 13) 5748019200

def sLoA (m : ℕ) : ℕ := uLo m + powLo (uLo m) 5 / 120 + powLo (uLo m) 9 / 362880

def sLoB (m : ℕ) : ℕ :=
  cdiv (powHi (uHi m) 3) 6 + cdiv (powHi (uHi m) 7) 5040 +
    cdiv (powHi (uHi m) 11) 39916800 + errHi

def sinLo (m : ℕ) : ℕ := sLoA m - sLoB m

def sHiA (m : ℕ) : ℕ :=
  uHi m + cdiv (powHi (uHi m) 5) 120 + cdiv (powHi (uHi m) 9) 362880 + errHi

def sHiB (m : ℕ) : ℕ := powLo (uLo m) 3 / 6 + powLo (uLo m) 7 / 5040 + powLo (uLo m) 11 / 39916800

def sinHi (m : ℕ) : ℕ := sHiA m - sHiB m

def cLoA (m : ℕ) : ℕ := SCALE + powLo (uLo m) 4 / 24 + powLo (uLo m) 8 / 40320

def cLoB (m : ℕ) : ℕ :=
  cdiv (powHi (uHi m) 2) 2 + cdiv (powHi (uHi m) 6) 720 +
    cdiv (powHi (uHi m) 10) 3628800 + errHi

def cosLo (m : ℕ) : ℕ := cLoA m - cLoB m

def cHiA (m : ℕ) : ℕ :=
  SCALE + cdiv (powHi (uHi m) 4) 24 + cdiv (powHi (uHi m) 8) 40320 + errHi

def cHiB (m : ℕ) : ℕ := powLo (uLo m) 2 / 2 + powLo (uLo m) 6 / 720 + powLo (uLo m) 10 / 3628800

def cosHi (m : ℕ) : ℕ := min (cHiA m - cHiB m) SCALE

def quarterIdx (j : ℕ) : ℕ :=
  if j ≤ 512 then (if j ≤ 256 then j else 512 - j)
  else (if 1024 - j ≤ 256 then 1024 - j else j - 512)

def gridLo (j : ℕ) : ℕ := 2 * mulLo (sinLo (quarterIdx j)) (cosLo (quarterIdx j))

def gridHi (j : ℕ) : ℕ :=
  min (2 * mulHi (sinHi (quarterIdx j)) (cosHi (quarterIdx j))) SCALE

def checkEntry (j v : ℕ) : Bool :=
  decide (sHiB (quarterIdx j) ≤ sHiA (quarterIdx j)) &&
    decide (cHiB (quarterIdx j) ≤ cHiA (quarterIdx j)) &&
    (if j ≤ 512 then
      decide (2 * SCALE * v ≤ 255 * (SCALE + gridLo j) + SCALE) &&
        decide (255 * (SCALE + gridHi j) < 2 * SCALE * v + SCALE)
    else
      decide (2 * SCALE * v ≤ 255 * (SCALE - gridHi j) + SCALE) &&
        decide (255 * (SCALE - gridLo j) < 2 * SCALE * v + SCALE))

def checkFrom (f : ℕ) : ℕ → List ℕ → Bool
  | _, [] => true
  | i, v :: rest => checkEntry (f * i) v && checkFrom f (i + 1) rest

end SineWave

namespace SineWave

open Real Finset

theorem exp_series_split (x : ℝ) :
    (∑ m ∈ range 12, ((x : ℂ) * Complex.I) ^ m / m.factorial) =
      (cosPoly x : ℝ) + (sinPoly x : ℝ) * Complex.I := by
  simp only [Finset.sum_range_succ, Finset.range_zero, Finset.sum_empty, Nat.factorial]
  apply Complex.ext <;>
    simp [cosPoly, sinPoly, div_eq_mul_inv, pow_succ, mul_pow, Complex.mul_re, Complex.mul_im,
      Complex.I_re, Complex.I_im] <;> ring

theorem sin_taylor_bound {x : ℝ} (hx : |x| ≤ 1) :
    |Real.sin x - sinPoly x| ≤ 13 / 5748019200 := by
  have hz : Complex.abs ((x : ℂ) * Complex.I) ≤ 1 := by
    simpa [Complex.abs_ofReal] using hx
  have hb := Complex.exp_bound hz (n := 12) (by norm_num)
  rw [exp_series_split] at hb
  have him : |(Complex.exp ((x : ℂ) * Complex.I) -
      ((cosPoly x : ℝ) + (sinPoly x : ℝ) * Complex.I)).im| ≤
      Complex.abs (Complex.exp ((x : ℂ) * Complex.I) -
      ((cosPoly x : ℝ) + (sinPoly x : ℝ) * Complex.I)) := Complex.abs_im_le_abs _
  have heq : (Complex.exp ((x : ℂ) * Complex.I) -
      ((cosPoly x : ℝ) + (sinPoly x : ℝ) * Complex.I)).im = Real.sin x - sinPoly x := by
    simp [Complex.sub_im, Complex.add_im, Complex.exp_ofReal_mul_I_im, Complex.mul_im]
  rw [heq] at him
  have hpow : Complex.abs ((x : ℂ) * Complex.I) ^ 12 ≤ 1 := by
    exact pow_le_one₀ (Complex.abs.nonneg _) hz
  refine le_trans him (le_trans hb ?_)
  have h1 : Complex.abs ((x : ℂ) * Complex.I) ^ 12 ≤ 1 := hpow
  have h2 : (0 : ℝ) ≤ ((12 : ℕ).succ : ℝ) * (((12 : ℕ).factorial : ℝ) * (12 : ℝ))⁻¹ := by positivity
  calc Complex.abs ((x : ℂ) * Complex.I) ^ 12 * (((12 : ℕ).succ : ℝ) * (((12 : ℕ).factorial : ℝ) * (12 : ℝ))⁻¹)
      ≤ 1 * (((12 : ℕ).succ : ℝ) * (((12 : ℕ).factorial : ℝ) * (12 : ℝ))⁻¹) := by gcongr
    _ = 13 / 5748019200 := by norm_num [Nat.factorial]

theorem cos_taylor_bound {x : ℝ} (hx : |x| ≤ 1) :
    |Real.cos x - cosPoly x| ≤ 13 / 5748019200 := by
  have hz : Complex.abs ((x : ℂ) * Complex.I) ≤ 1 := by
    simpa [Complex.abs_ofReal] using hx
  have hb := Complex.exp_bound hz (n := 12) (by norm_num)
  rw [exp_series_split] at hb
  have him : |(Complex.exp ((x : ℂ) * Complex.I) -
      ((cosPoly x : ℝ) + (sinPoly x : ℝ) * Complex.I)).re| ≤
      Complex.abs (Complex.exp ((x : ℂ) * Complex.I) -
      ((cosPoly x : ℝ) + (sinPoly x : ℝ) * Complex.I)) := Complex.abs_re_le_abs _
  have heq : (Complex.exp ((x : ℂ) * Complex.I) -
      ((cosPoly x : ℝ) + (sinPoly x : ℝ) * Complex.I)).re = Real.cos x - cosPoly x := by
    simp [Complex.sub_re, Complex.add_re, Complex.exp_ofReal_mul_I_re, Complex.mul_re]
  rw [heq] at him
  have hpow : Complex.abs ((x : ℂ) * Complex.I) ^ 12 ≤ 1 := by
    exact pow_le_one₀ (Complex.abs.nonneg _) hz
  refine le_trans him (le_trans hb ?_)
  have h1 : Complex.abs ((x : ℂ) * Complex.I) ^ 12 ≤ 1 := hpow
  have h2 : (0 : ℝ) ≤ ((12 : ℕ).succ : ℝ) * (((12 : ℕ).factorial : ℝ) * (12 : ℝ))⁻¹ := by positivity
  calc Complex.abs ((x : ℂ) * Complex.I) ^ 12 * (((12 : ℕ).succ : ℝ) * (((12 : ℕ).factorial : ℝ) * (12 : ℝ))⁻¹)
      ≤ 1 * (((12 : ℕ).succ : ℝ) * (((12 : ℕ).factorial : ℝ) * (12 : ℝ))⁻¹) := by gcongr
    _ = 13 / 5748019200 := by norm_num [Nat.factorial]

theorem scale_cast : ((SCALE : ℕ) : ℝ) = 10 ^ 18 := by norm_num [SCALE]

theorem scale_pos : (0 : ℝ) < (SCALE : ℕ) := by rw [scale_cast]; norm_num

theorem isLB_nonneg {a : ℕ} {x : ℝ} (h : IsLB a x) : 0 ≤ x := by
  unfold IsLB at h
  have h0 : (0 : ℝ) ≤ (a : ℝ) := Nat.cast_nonneg a
  nlinarith [scale_pos]

theorem isLB_add {a b : ℕ} {x y : ℝ} (ha : IsLB a x) (hb : IsLB b y) : IsLB (a + b) (x + y) := by
  unfold IsLB at *
  push_cast
  linarith

theorem isUB_add {a b : ℕ} {x y : ℝ} (ha : IsUB a x) (hb : IsUB b y) : IsUB (a + b) (x + y) := by
  unfold IsUB at *
  push_cast
  linarith

theorem le_mul_cdiv {a b : ℕ} (hb : 0 < b) : a ≤ b * cdiv a b := by
  unfold cdiv
  have h1 := Nat.div_add_mod (a + b - 1) b
  have h2 := Nat.mod_lt (a + b - 1) hb
  omega

theorem cdiv_cast_le {a b : ℕ} (hb : 0 < b) : (a : ℝ) / (b : ℝ) ≤ (cdiv a b : ℝ) := by
  have h := le_mul_cdiv (a := a) hb
  have hbR : (0 : ℝ) < (b : ℝ) := by exact_mod_cast hb
  rw [div_le_iff₀ hbR]
  calc (a : ℝ) ≤ (b * cdiv a b : ℕ) := by exact_mod_cast h
    _ = (cdiv a b : ℝ) * b := by push_cast; ring

theorem isLB_mul {a b : ℕ} {x y : ℝ} (ha : IsLB a x) (hb : IsLB b y) : IsLB (mulLo a b) (x * y) := by
  have hy := isLB_nonneg hb
  unfold IsLB at *
  unfold mulLo
  have h1 : ((a * b / SCALE : ℕ) : ℝ) ≤ ((a * b : ℕ) : ℝ) / (SCALE : ℝ) := Nat.cast_div_le
  have h2 : ((a * b : ℕ) : ℝ) ≤ (SCALE : ℝ) * x * ((SCALE : ℝ) * y) := by
    push_cast
    have := mul_le_mul ha hb (Nat.cast_nonneg b) (le_trans (Nat.cast_nonneg a) ha)
    linarith
  have hS := scale_pos
  calc ((a * b / SCALE : ℕ) : ℝ) ≤ ((a * b : ℕ) : ℝ) / (SCALE : ℝ) := h1
    _ ≤ (SCALE : ℝ) * x * ((SCALE : ℝ) * y) / (SCALE : ℝ) := by
        exact div_le_div_of_nonneg_right h2 hS.le
    _ = (SCALE : ℝ) * (x * y) := by field_simp; ring

theorem isUB_mul {a b : ℕ} {x y : ℝ} (ha : IsUB a x) (hb : IsUB b y)
    (_hx : 0 ≤ x) (hy : 0 ≤ y) : IsUB (mulHi a b) (x * y) := by
  unfold IsUB at *
  unfold mulHi
  have hS := scale_pos
  have h2 : (SCALE : ℝ) * x * ((SCALE : ℝ) * y) ≤ ((a * b : ℕ) : ℝ) := by
    push_cast
    have := mul_le_mul ha hb (by positivity) (Nat.cast_nonneg a)
    linarith
  have h3 : ((a * b : ℕ) : ℝ) / (SCALE : ℝ) ≤ (cdiv (a * b) SCALE : ℝ) :=
    cdiv_cast_le (by norm_num [SCALE])
  calc (SCALE : ℝ) * (x * y) = (SCALE : ℝ) * x * ((SCALE : ℝ) * y) / (SCALE : ℝ) := by
        field_simp; ring
    _ ≤ ((a * b : ℕ) : ℝ) / (SCALE : ℝ) := by
        exact div_le_div_of_nonneg_right h2 hS.le
    _ ≤ (cdiv (a * b) SCALE : ℝ) := h3

theorem isLB_pow {a : ℕ} {x : ℝ} (ha : IsLB a x) : ∀ k, IsLB (powLo a k) (x ^ k)
  | 0 => by unfold IsLB powLo; norm_num
  | k + 1 => by
      have := isLB_mul ha (isLB_pow ha k)
      simpa [powLo, pow_succ, mul_comm] using this

theorem isUB_pow {a : ℕ} {x : ℝ} (ha : IsUB a x) (hx : 0 ≤ x) : ∀ k, IsUB (powHi a k) (x ^ k)
  | 0 => by unfold IsUB powHi; norm_num
  | k + 1 => by
      have := isUB_mul ha (isUB_pow ha hx k) hx (by positivity)
      simpa [powHi, pow_succ, mul_comm] using this

theorem isLB_divn {a n : ℕ} {x : ℝ} (ha : IsLB a x) (hn : 0 < n) : IsLB (a / n) (x / n) := by
  unfold IsLB at *
  have hnR : (0 : ℝ) < (n : ℝ) := by exact_mod_cast hn
  have h1 : ((a / n : ℕ) : ℝ) ≤ (a : ℝ) / (n : ℝ) := Nat.cast_div_le
  calc ((a / n : ℕ) : ℝ) ≤ (a : ℝ) / (n : ℝ) := h1
    _ ≤ (SCALE : ℝ) * x / (n : ℝ) := by exact div_le_div_of_nonneg_right ha hnR.le
    _ = (SCALE : ℝ) * (x / n) := by ring

theorem isUB_divn {a n : ℕ} {x : ℝ} (ha : IsUB a x) (hn : 0 < n) : IsUB (cdiv a n) (x / n) := by
  unfold IsUB at *
  have hnR : (0 : ℝ) < (n : ℝ) := by exact_mod_cast hn
  calc (SCALE : ℝ) * (x / n) = (SCALE : ℝ) * x / (n : ℝ) := by ring
    _ ≤ (a : ℝ) / (n : ℝ) := by exact div_le_div_of_nonneg_right ha hnR.le
    _ ≤ (cdiv a n : ℝ) := cdiv_cast_le hn

theorem isLB_sub {a b : ℕ} {p q x : ℝ} (ha : IsLB a p) (hb : IsUB b q)
    (hx : p - q ≤ x) (h0 : 0 ≤ x) : IsLB (a - b) x := by
  unfold IsLB IsUB at *
  rcases le_or_lt b a with hba | hba
  · rw [Nat.cast_sub hba]
    have hx2 : (SCALE : ℝ) * (p - q) ≤ (SCALE : ℝ) * x :=
      mul_le_mul_of_nonneg_left hx scale_pos.le
    nlinarith
  · rw [Nat.sub_eq_zero_of_le (le_of_lt hba)]
    have := scale_pos
    push_cast
    nlinarith

theorem isUB_sub {a b : ℕ} {p q x : ℝ} (ha : IsUB a p) (hb : IsLB b q)
    (hx : x ≤ p - q) (hba : b ≤ a) : IsUB (a - b) x := by
  unfold IsLB IsUB at *
  rw [Nat.cast_sub hba]
  have hx2 : (SCALE : ℝ) * x ≤ (SCALE : ℝ) * (p - q) :=
    mul_le_mul_of_nonneg_left hx scale_pos.le
  nlinarith

theorem isUB_min_scale {a : ℕ} {x : ℝ} (ha : IsUB a x) (hx : x ≤ 1) : IsUB (min a SCALE) x := by
  unfold IsUB at *
  rcases le_total a SCALE with h | h
  · rwa [min_eq_left h]
  · rw [min_eq_right h]
    nlinarith [scale_pos]

theorem uLo_isLB (m : ℕ) : IsLB (uLo m) (π * m / 1024) := by
  unfold IsLB uLo
  have h1 : ((3141592 * m * SCALE / 1024000000 : ℕ) : ℝ) ≤
      ((3141592 * m * SCALE : ℕ) : ℝ) / ((1024000000 : ℕ) : ℝ) := Nat.cast_div_le
  have hpi : (3141592 : ℝ) ≤ 1000000 * π := by
    have := Real.pi_gt_d6
    norm_num at this ⊢
    linarith
  have h2 : ((3141592 * m * SCALE : ℕ) : ℝ) ≤ 1000000 * π * m * SCALE := by
    push_cast
    have hm : (0 : ℝ) ≤ (m : ℝ) := Nat.cast_nonneg m
    have hS : (0 : ℝ) ≤ ((SCALE : ℕ) : ℝ) := Nat.cast_nonneg SCALE
    nlinarith [mul_le_mul_of_nonneg_right hpi (mul_nonneg hm hS)]
  calc ((3141592 * m * SCALE / 1024000000 : ℕ) : ℝ)
      ≤ ((3141592 * m * SCALE : ℕ) : ℝ) / ((1024000000 : ℕ) : ℝ) := h1
    _ ≤ (1000000 * π * m * SCALE) / ((1024000000 : ℕ) : ℝ) := by
        apply div_le_div_of_nonneg_right h2 (by norm_num)
    _ = (SCALE : ℝ) * (π * m / 1024) := by
        push_cast
        ring

theorem uHi_isUB (m : ℕ) : IsUB (uHi m) (π * m / 1024) := by
  unfold IsUB uHi
  have hpi : 1000000 * π ≤ (3141593 : ℝ) := by
    have := Real.pi_lt_d6
    norm_num at this ⊢
    linarith
  have h2 : (SCALE : ℝ) * (π * m / 1024) ≤ ((3141593 * m * SCALE : ℕ) : ℝ) / ((1024000000 : ℕ) : ℝ) := by
    rw [le_div_iff₀ (by norm_num)]
    push_cast
    have hm : (0 : ℝ) ≤ (m : ℝ) := Nat.cast_nonneg m
    have hS : (0 : ℝ) ≤ ((SCALE : ℕ) : ℝ) := Nat.cast_nonneg SCALE
    nlinarith [mul_le_mul_of_nonneg_right hpi (mul_nonneg hm hS)]
  calc (SCALE : ℝ) * (π * m / 1024)
      ≤ ((3141593 * m * SCALE : ℕ) : ℝ) / ((1024000000 : ℕ) : ℝ) := h2
    _ ≤ (cdiv (3141593 * m * SCALE) 1024000000 : ℝ) := cdiv_cast_le (by norm_num)

theorem errHi_isUB : IsUB errHi (13 / 5748019200) := by
  unfold IsUB errHi
  calc (SCALE : ℝ) * (13 / 5748019200) = ((SCALE * 13 : ℕ) : ℝ) / ((5748019200 : ℕ) : ℝ) := by
        push_cast; ring
    _ ≤ (cdiv (SCALE * 13) 5748019200 : ℝ) := cdiv_cast_le (by norm_num)

theorem u_le_one {m : ℕ} (hm : m ≤ 256) : π * m / 1024 ≤ 1 := by
  rw [div_le_one (by norm_num : (0 : ℝ) < 1024)]
  have hm' : (m : ℝ) ≤ 256 := by exact_mod_cast hm
  have hm0 : (0 : ℝ) ≤ (m : ℝ) := Nat.cast_nonneg m
  have hpi := Real.pi_lt_d6
  have hpi0 := Real.pi_pos
  norm_num at hpi
  nlinarith

theorem u_nonneg (m : ℕ) : 0 ≤ π * m / 1024 := by positivity

theorem sinLo_isLB {m : ℕ} (hm : m ≤ 256) : IsLB (sinLo m) (Real.sin (π * m / 1024)) := by
  set u := π * m / 1024 with hu
  have hu0 := u_nonneg m
  have hu1 := u_le_one hm
  have habs : |u| ≤ 1 := abs_le.2 ⟨by linarith, hu1⟩
  have htb := sin_taylor_bound habs
  rw [abs_le] at htb
  have hA : IsLB (sLoA m) (u + u ^ 5 / 120 + u ^ 9 / 362880) :=
    isLB_add (isLB_add (uLo_isLB m) (isLB_divn (isLB_pow (uLo_isLB m) 5) (by norm_num)))
      (isLB_divn (isLB_pow (uLo_isLB m) 9) (by norm_num))
  have hB : IsUB (sLoB m) (u ^ 3 / 6 + u ^ 7 / 5040 + u ^ 11 / 39916800 + 13 / 5748019200) :=
    isUB_add (isUB_add (isUB_add (isUB_divn (isUB_pow (uHi_isUB m) hu0 3) (by norm_num))
      (isUB_divn (isUB_pow (uHi_isUB m) hu0 7) (by norm_num)))
      (isUB_divn (isUB_pow (uHi_isUB m) hu0 11) (by norm_num))) errHi_isUB
  apply isLB_sub hA hB
  · have : sinPoly u - 13 / 5748019200 ≤ Real.sin u := by linarith [htb.1]
    unfold sinPoly at this
    linarith
  · apply Real.sin_nonneg_of_nonneg_of_le_pi hu0
    have := Real.pi_gt_three
    linarith

theorem sinHi_isUB {m : ℕ} (hm : m ≤ 256) (hside : sHiB m ≤ sHiA m) :
    IsUB (sinHi m) (Real.sin (π * m / 1024)) := by
  set u := π * m / 1024 with hu
  have hu0 := u_nonneg m
  have hu1 := u_le_one hm
  have habs : |u| ≤ 1 := abs_le.2 ⟨by linarith, hu1⟩
  have htb := sin_taylor_bound habs
  rw [abs_le] at htb
  have hA : IsUB (sHiA m) (u + u ^ 5 / 120 + u ^ 9 / 362880 + 13 / 5748019200) :=
    isUB_add (isUB_add (isUB_add (uHi_isUB m) (isUB_divn (isUB_pow (uHi_isUB m) hu0 5) (by norm_num)))
      (isUB_divn (isUB_pow (uHi_isUB m) hu0 9) (by norm_num))) errHi_isUB
  have hB : IsLB (sHiB m) (u ^ 3 / 6 + u ^ 7 / 5040 + u ^ 11 / 39916800) :=
    isLB_add (isLB_add (isLB_divn (isLB_pow (uLo_isLB m) 3) (by norm_num))
      (isLB_divn (isLB_pow (uLo_isLB m) 7) (by norm_num)))
      (isLB_divn (isLB_pow (uLo_isLB m) 11) (by norm_num))
  apply isUB_sub hA hB _ hside
  have : Real.sin u ≤ sinPoly u + 13 / 5748019200 := by linarith [htb.2]
  unfold sinPoly at this
  linarith

theorem scale_isLB_one : IsLB SCALE 1 := by unfold IsLB; norm_num

theorem scale_isUB_one : IsUB SCALE 1 := by unfold IsUB; norm_num

theorem cosLo_isLB {m : ℕ} (hm : m ≤ 256) : IsLB (cosLo m) (Real.cos (π * m / 1024)) := by
  set u := π * m / 1024 with hu
  have hu0 := u_nonneg m
  have hu1 := u_le_one hm
  have habs : |u| ≤ 1 := abs_le.2 ⟨by linarith, hu1⟩
  have htb := cos_taylor_bound habs
  rw [abs_le] at htb
  have hA : IsLB (cLoA m) (1 + u ^ 4 / 24 + u ^ 8 / 40320) :=
    isLB_add (isLB_add scale_isLB_one (isLB_divn (isLB_pow (uLo_isLB m) 4) (by norm_num)))
      (isLB_divn (isLB_pow (uLo_isLB m) 8) (by norm_num))
  have hB : IsUB (cLoB m) (u ^ 2 / 2 + u ^ 6 / 720 + u ^ 10 / 3628800 + 13 / 5748019200) :=
    isUB_add (isUB_add (isUB_add (isUB_divn (isUB_pow (uHi_isUB m) hu0 2) (by norm_num))
      (isUB_divn (isUB_pow (uHi_isUB m) hu0 6) (by norm_num)))
      (isUB_divn (isUB_pow (uHi_isUB m) hu0 10) (by norm_num))) errHi_isUB
  apply isLB_sub hA hB
  · have : cosPoly u - 13 / 5748019200 ≤ Real.cos u := by linarith [htb.1]
    unfold cosPoly at this
    linarith
  · apply Real.cos_nonneg_of_mem_Icc
    constructor
    · have := Real.pi_pos
      linarith
    · have := Real.pi_gt_three
      linarith

theorem cosHi_isUB {m : ℕ} (hm : m ≤ 256) (hside : cHiB m ≤ cHiA m) :
    IsUB (cosHi m) (Real.cos (π * m / 1024)) := by
  set u := π * m / 1024 with hu
  have hu0 := u_nonneg m
  have hu1 := u_le_one hm
  have habs : |u| ≤ 1 := abs_le.2 ⟨by linarith, hu1⟩
  have htb := cos_taylor_bound habs
  rw [abs_le] at htb
  have hA : IsUB (cHiA m) (1 + u ^ 4 / 24 + u ^ 8 / 40320 + 13 / 5748019200) :=
    isUB_add (isUB_add (isUB_add scale_isUB_one (isUB_divn (isUB_pow (uHi_isUB m) hu0 4) (by norm_num)))
      (isUB_divn (isUB_pow (uHi_isUB m) hu0 8) (by norm_num))) errHi_isUB
  have hB : IsLB (cHiB m) (u ^ 2 / 2 + u ^ 6 / 720 + u ^ 10 / 3628800) :=
    isLB_add (isLB_add (isLB_divn (isLB_pow (uLo_isLB m) 2) (by norm_num))
      (isLB_divn (isLB_pow (uLo_isLB m) 6) (by norm_num)))
      (isLB_divn (isLB_pow (uLo_isLB m) 10) (by norm_num))
  unfold cosHi
  apply isUB_min_scale _ (Real.cos_le_one u)
  apply isUB_sub hA hB _ hside
  have : Real.cos u ≤ cosPoly u + 13 / 5748019200 := by linarith [htb.2]
  unfold cosPoly at this
  linarith

theorem quarterIdx_le (j : ℕ) : quarterIdx j ≤ 256 := by
  unfold quarterIdx
  split <;> split <;> omega

theorem cast_sub_ge (a b : ℕ) : (a : ℝ) - (b : ℝ) ≤ ((a - b : ℕ) : ℝ) := by
  rcases le_total b a with h | h
  · rw [Nat.cast_sub h]
  · rw [Nat.sub_eq_zero_of_le h]
    have h1 : (a : ℝ) ≤ (b : ℝ) := by exact_mod_cast h
    push_cast
    linarith

theorem sin_grid (j : ℕ) (hj : j < 1024) :
    Real.sin (π * j / 512) =
      (if j ≤ 512 then (1 : ℝ) else -1) * Real.sin (2 * (π * (quarterIdx j) / 1024)) := by
  unfold quarterIdx
  by_cases h5 : j ≤ 512
  · rw [if_pos h5, if_pos h5, one_mul]
    by_cases h2 : j ≤ 256
    · rw [if_pos h2]
      congr 1
      ring
    · rw [if_neg h2]
      have hc : ((512 - j : ℕ) : ℝ) = 512 - (j : ℝ) := by
        rw [Nat.cast_sub h5]
        norm_num
      have ha : π * (j : ℝ) / 512 = π - π * (512 - (j : ℝ)) / 512 := by ring
      rw [ha, Real.sin_pi_sub, hc]
      congr 1
      ring
  · rw [if_neg h5, if_neg h5]
    push_neg at h5
    have h1024 : j ≤ 1024 := le_of_lt hj
    have hc1 : ((1024 - j : ℕ) : ℝ) = 1024 - (j : ℝ) := by
      rw [Nat.cast_sub h1024]
      norm_num
    have ha : π * (j : ℝ) / 512 = 2 * π - π * (1024 - (j : ℝ)) / 512 := by ring
    by_cases h2 : 1024 - j ≤ 256
    · rw [if_pos h2, ha, Real.sin_two_pi_sub]
      rw [hc1, neg_one_mul]
      congr 2
      ring
    · rw [if_neg h2]
      have hc2 : ((j - 512 : ℕ) : ℝ) = (j : ℝ) - 512 := by
        rw [Nat.cast_sub (le_of_lt h5)]
        norm_num
      have hb : π * (1024 - (j : ℝ)) / 512 = π - π * ((j : ℝ) - 512) / 512 := by ring
      rw [ha, Real.sin_two_pi_sub, hb, Real.sin_pi_sub, hc2, neg_one_mul]
      congr 1
      ring_nf

theorem sin2u_nonneg {m : ℕ} (hm : m ≤ 256) : 0 ≤ Real.sin (π * m / 1024) :=
  Real.sin_nonneg_of_nonneg_of_le_pi (u_nonneg m)
    (le_trans (u_le_one hm) (by linarith [Real.pi_gt_three]))

theorem cos2u_nonneg {m : ℕ} (hm : m ≤ 256) : 0 ≤ Real.cos (π * m / 1024) := by
  apply Real.cos_nonneg_of_mem_Icc
  constructor
  · have := Real.pi_pos
    have := u_nonneg m
    linarith
  · have := Real.pi_gt_three
    have := u_le_one hm
    linarith

theorem gridLo_isLB {j : ℕ} : IsLB (gridLo j) (Real.sin (2 * (π * (quarterIdx j) / 1024))) := by
  have hq := quarterIdx_le j
  have h := isLB_mul (sinLo_isLB hq) (cosLo_isLB hq)
  unfold IsLB at h ⊢
  unfold gridLo
  rw [Real.sin_two_mul]
  push_cast
  linarith

theorem gridHi_isUB {j : ℕ} (hs : sHiB (quarterIdx j) ≤ sHiA (quarterIdx j))
    (hc : cHiB (quarterIdx j) ≤ cHiA (quarterIdx j)) :
    IsUB (gridHi j) (Real.sin (2 * (π * (quarterIdx j) / 1024))) := by
  have hq := quarterIdx_le j
  have h := isUB_mul (sinHi_isUB hq hs) (cosHi_isUB hq hc) (sin2u_nonneg hq) (cos2u_nonneg hq)
  unfold gridHi
  apply isUB_min_scale _ (Real.sin_le_one _)
  unfold IsUB at h ⊢
  rw [Real.sin_two_mul]
  push_cast
  linarith

theorem checkEntry_sound {j v : ℕ} (hj : j < 1024) (h : checkEntry j v = true) :
    (v : ℤ) = round ((127.5 : ℝ) + 127.5 * Real.sin (π * j / 512)) := by
  unfold checkEntry at h
  rw [Bool.and_assoc] at h
  rw [Bool.and_eq_true] at h
  obtain ⟨hside1, h⟩ := h
  rw [Bool.and_eq_true] at h
  obtain ⟨hside2, hcmp⟩ := h
  rw [decide_eq_true_eq] at hside1 hside2
  have hgl := gridLo_isLB (j := j)
  have hgh := gridHi_isUB hside1 hside2
  unfold IsLB at hgl
  unfold IsUB at hgh
  set s2 := Real.sin (2 * (π * (quarterIdx j) / 1024)) with hs2
  have hangle := sin_grid j hj
  have hS := scale_pos
  have hs2le : s2 ≤ 1 := Real.sin_le_one _
  have hghS : (gridHi j : ℝ) ≤ (SCALE : ℝ) := by
    have : gridHi j ≤ SCALE := min_le_right _ _
    exact_mod_cast this
  rw [round_eq]
  symm
  rw [Int.floor_eq_iff]
  by_cases h5 : j ≤ 512
  · rw [if_pos h5] at hcmp
    rw [if_pos h5, one_mul] at hangle
    rw [Bool.and_eq_true, decide_eq_true_eq, decide_eq_true_eq] at hcmp
    obtain ⟨hc1, hc2⟩ := hcmp
    have hc1R : (2 : ℝ) * SCALE * v ≤ 255 * ((SCALE : ℝ) + gridLo j) + SCALE := by
      exact_mod_cast hc1
    have hc2R : (255 : ℝ) * ((SCALE : ℝ) + gridHi j) < 2 * SCALE * v + SCALE := by
      exact_mod_cast hc2
    constructor
    · have key : (SCALE : ℝ) * (2 * v) ≤ (SCALE : ℝ) * (255 + 255 * s2 + 1) := by
        nlinarith
      have h2 := le_of_mul_le_mul_left key hS
      rw [hangle]
      push_cast
      linarith
    · have key : (SCALE : ℝ) * (255 + 255 * s2) < (SCALE : ℝ) * (2 * v + 1) := by
        nlinarith
      have h2 := lt_of_mul_lt_mul_left key hS.le
      rw [hangle]
      push_cast
      linarith
  · rw [if_neg h5] at hcmp
    rw [if_neg h5, neg_one_mul] at hangle
    rw [Bool.and_eq_true, decide_eq_true_eq, decide_eq_true_eq] at hcmp
    obtain ⟨hc1, hc2⟩ := hcmp
    have hleS : gridHi j ≤ SCALE := min_le_right _ _
    have hsubHi : ((SCALE - gridHi j : ℕ) : ℝ) = (SCALE : ℝ) - gridHi j := by
      rw [Nat.cast_sub hleS]
    have hc1R : (2 : ℝ) * SCALE * v ≤ 255 * ((SCALE : ℝ) - gridHi j) + SCALE := by
      rw [← hsubHi]
      exact_mod_cast hc1
    have hc2R : (255 : ℝ) * (((SCALE - gridLo j : ℕ) : ℝ)) < 2 * SCALE * v + SCALE := by
      exact_mod_cast hc2
    have hsubLo : (SCALE : ℝ) - gridLo j ≤ ((SCALE - gridLo j : ℕ) : ℝ) := cast_sub_ge _ _
    constructor
    · have key : (SCALE : ℝ) * (2 * v) ≤ (SCALE : ℝ) * (255 - 255 * s2 + 1) := by
        nlinarith
      have h2 := le_of_mul_le_mul_left key hS
      rw [hangle]
      push_cast
      linarith
    · have key : (SCALE : ℝ) * (255 - 255 * s2) < (SCALE : ℝ) * (2 * v + 1) := by
        nlinarith
      have h2 := lt_of_mul_lt_mul_left key hS.le
      rw [hangle]
      push_cast
      linarith

theorem checkFrom_sound {f : ℕ} : ∀ {i : ℕ} {t : List ℕ}, checkFrom f i t = true →
    ∀ k, k < t.length → checkEntry (f * (i + k)) (t.getD k 0) = true := by
  intro i t
  induction t generalizing i with
  | nil =>
    intro _ k hk
    simp at hk
  | cons v rest ih =>
    intro h k hk
    unfold checkFrom at h
    rw [Bool.and_eq_true] at h
    cases k with
    | zero =>
      simpa using h.1
    | succ q =>
      have hr := ih h.2 q (by simpa using hk)
      have harith : i + 1 + q = i + (q + 1) := by omega
      rw [harith] at hr
      simpa using hr

theorem getD_le_255 {t : List Nat} (h : ∀ v ∈ t, v ≤ 255) : ∀ i : Nat, t.getD i 0 ≤ 255 := by
  induction t with
  | nil =>
    intro i
    simp [List.getD]
  | cons a rest ih =>
    intro i
    cases i with
    | zero =>
      simpa using h a (by simp)
    | succ q =>
      simpa using ih (fun v hv => h v (by simp [hv])) q

theorem land_mask :
    ∀ n ∈ [256, 512, 1024], ∀ x, x < 1025 → x &&& (n - 1) = x % n := by
  decide

theorem isrRun_i {t : List Nat} {n : Nat} (hn : n = 256 ∨ n = 512 ∨ n = 1024) :
    ∀ (k : Nat) (s : MachineState), s.i < n → (isrRun t (n - 1) s k).i = (s.i + k) % n := by
  have hmem : n ∈ [256, 512, 1024] := by
    rcases hn with rfl | rfl | rfl <;> simp
  have hbig : n ≤ 1024 := by rcases hn with rfl | rfl | rfl <;> omega
  intro k
  induction k with
  | zero =>
    intro s hs
    simpa [isrRun] using (Nat.mod_eq_of_lt hs).symm
  | succ q ih =>
    intro s hs
    have hstep : (isr t (n - 1) s).i = (s.i + 1) % n := by
      have h16 : (s.i + 1) % 2 ^ 16 = s.i + 1 := Nat.mod_eq_of_lt (by omega)
      simp only [isr, h16]
      exact land_mask n hmem (s.i + 1) (by omega)
    have hlt : (isr t (n - 1) s).i < n := by
      rw [hstep]
      exact Nat.mod_lt _ (by omega)
    have := ih (isr t (n - 1) s) hlt
    rw [hstep] at this
    calc (isrRun t (n - 1) s (q + 1)).i = (isrRun t (n - 1) (isr t (n - 1) s) q).i := by
          rfl
      _ = ((s.i + 1) % n + q) % n := this
      _ = (s.i + (q + 1)) % n := by
          rw [Nat.mod_add_mod]
          congr 1
          omega

theorem isrStep_inv {t : List Nat} {mask : Nat} {s s' : MachineState} {o : Nat}
    (h : IsrStep t mask s o s') :
    o = t.getD s.i 0 % 256 ∧
      s' = { s with OCR2A := o, i := ((s.i + 1) % 2 ^ 16) &&& mask } := by
  cases h with
  | step wa xa ya za => exact ⟨ya, za⟩

end SineWave

open SineWave

/-- Claim C1: on every timer-overflow invocation of the ISR, starting from the
current phase index `i`, the routine writes `WaveformTable[i]` to the compare
register `OCR2A`, then increments `i`, then applies the mask `i &= N - 1`
(equal to `(i + 1) % N` from an in-range index); the configuration registers
are untouched. -/
theorem claim_C1 :
    ∀ tn ∈ [(SINE_FULL_WAVE_256, 256), (SINE_FULL_WAVE_512, 512), (SINE_FULL_WAVE_1024, 1024)],
    ∀ s : MachineState, s.i < tn.2 →
      (isr tn.1 (tn.2 - 1) s).OCR2A = tn.1.getD s.i 0 ∧
      (isr tn.1 (tn.2 - 1) s).i = (s.i + 1) % tn.2 ∧
      (isr tn.1 (tn.2 - 1) s).TCCR2A = s.TCCR2A ∧
      (isr tn.1 (tn.2 - 1) s).TCCR2B = s.TCCR2B ∧
      (isr tn.1 (tn.2 - 1) s).TIMSK2 = s.TIMSK2 ∧
      (isr tn.1 (tn.2 - 1) s).DDRB = s.DDRB := by
  have main : ∀ (t : List Nat) (n : Nat), n ∈ [256, 512, 1024] → (∀ v ∈ t, v ≤ 255) →
      ∀ s : MachineState, s.i < n →
      (isr t (n - 1) s).OCR2A = t.getD s.i 0 ∧
      (isr t (n - 1) s).i = (s.i + 1) % n ∧
      (isr t (n - 1) s).TCCR2A = s.TCCR2A ∧
      (isr t (n - 1) s).TCCR2B = s.TCCR2B ∧
      (isr t (n - 1) s).TIMSK2 = s.TIMSK2 ∧
      (isr t (n - 1) s).DDRB = s.DDRB := by
    intro t n hn hall s hs
    have hbig : n ≤ 1024 := by
      simp only [List.mem_cons, List.not_mem_nil, or_false] at hn
      rcases hn with rfl | rfl | rfl <;> omega
    refine ⟨?_, ?_, rfl, rfl, rfl, rfl⟩
    · show t.getD s.i 0 % 256 = t.getD s.i 0
      exact Nat.mod_eq_of_lt (lt_of_le_of_lt (getD_le_255 hall s.i) (by omega))
    · show (s.i + 1) % 2 ^ 16 &&& (n - 1) = (s.i + 1) % n
      have h16 : (s.i + 1) % 2 ^ 16 = s.i + 1 := Nat.mod_eq_of_lt (by omega)
      rw [h16]
      exact land_mask n hn (s.i + 1) (by omega)
  intro tn htn
  simp only [List.mem_cons, List.not_mem_nil, or_false] at htn
  rcases htn with rfl | rfl | rfl
  · refine main SINE_FULL_WAVE_256 256 (by simp) ?_
    have hall : (SINE_FULL_WAVE_256.all fun v => decide (v ≤ 255)) = true := by decide
    simpa only [List.all_eq_true, decide_eq_true_eq] using hall
  · refine main SINE_FULL_WAVE_512 512 (by simp) ?_
    have hall : (SINE_FULL_WAVE_512.all fun v => decide (v ≤ 255)) = true := by decide
    simpa only [List.all_eq_true, decide_eq_true_eq] using hall
  · refine main SINE_FULL_WAVE_1024 1024 (by simp) ?_
    have hall : (SINE_FULL_WAVE_1024.all fun v => decide (v ≤ 255)) = true := by decide
    simpa only [List.all_eq_true, decide_eq_true_eq] using hall

/-- Witness for C1: the first invocation after reset reads index 0, writes
`SINE_FULL_WAVE_256[0] = 128`, advances the index to 1 and leaves the
configuration registers unchanged. -/
theorem claim_C1_witness :
    (isr SINE_FULL_WAVE_256 255 (initialState (false, false, true))).OCR2A =
      SINE_FULL_WAVE_256.getD (initialState (false, false, true)).i 0 ∧
    (isr SINE_FULL_WAVE_256 255 (initialState (false, false, true))).i =
      ((initialState (false, false, true)).i + 1) % 256 ∧
    (isr SINE_FULL_WAVE_256 255 (initialState (false, false, true))).TCCR2A =
      (initialState (false, false, true)).TCCR2A ∧
    (isr SINE_FULL_WAVE_256 255 (initialState (false, false, true))).TCCR2B =
      (initialState (false, false, true)).TCCR2B ∧
    (isr SINE_FULL_WAVE_256 255 (initialState (false, false, true))).TIMSK2 =
      (initialState (false, false, true)).TIMSK2 ∧
    (isr SINE_FULL_WAVE_256 255 (initialState (false, false, true))).DDRB =
      (initialState (false, false, true)).DDRB :=
  claim_C1 (SINE_FULL_WAVE_256, 256) (by simp) (initialState (false, false, true)) (by decide)

/-- Claim C2: from `PhaseIndex = 0`, `N` consecutive invocations visit every
index in `[0, N)` exactly once, in order (the index trace is `List.range N`),
the index returns to 0 so the `(N+1)`-th invocation restarts the sequence, and
260 overflow events on the 256-sample table output `WaveformTable[0..255]`
followed by `WaveformTable[0..3]`. -/
theorem claim_C2 :
    idxTrace SINE_FULL_WAVE_256 255 (initialState (false, false, true)) 256 =
      List.range 256 ∧
    (isrRun SINE_FULL_WAVE_256 255 (initialState (false, false, true)) 256).i = 0 ∧
    idxTrace SINE_FULL_WAVE_512 511 (initialState (false, false, true)) 512 =
      List.range 512 ∧
    (isrRun SINE_FULL_WAVE_512 511 (initialState (false, false, true)) 512).i = 0 ∧
    idxTrace SINE_FULL_WAVE_1024 1023 (initialState (false, false, true)) 1024 =
      List.range 1024 ∧
    (isrRun SINE_FULL_WAVE_1024 1023 (initialState (false, false, true)) 1024).i = 0 ∧
    idxTrace SINE_FULL_WAVE_256 255 (initialState (false, false, true)) 260 =
      List.range 256 ++ [0, 1, 2, 3] ∧
    outTrace SINE_FULL_WAVE_256 255 (initialState (false, false, true)) 260 =
      SINE_FULL_WAVE_256 ++ SINE_FULL_WAVE_256.take 4 := by
  refine ⟨by decide, by decide, by decide, by decide, by decide, by decide, by decide, by decide⟩

/-- Counterexample to claim C3 as stated: on the 256-sample table the first
entry is 128 and the last is 124, so they differ by 4 quantization steps,
not at most 1. -/
theorem claim_C3_counterexample :
    SINE_FULL_WAVE_256.getD 0 0 = 128 ∧
    SINE_FULL_WAVE_256.getD (SINE_FULL_WAVE_256.length - 1) 0 = 124 ∧
    wrapGap SINE_FULL_WAVE_256 = 4 ∧
    ¬ wrapGap SINE_FULL_WAVE_256 ≤ 1 := by
  refine ⟨by decide, by decide, by decide, by decide⟩

/-- Claim C3 (amended): `WaveformTable[0]` and `WaveformTable[N-1]` differ by
at most the largest difference between adjacent table entries — 4, 2 and 1
quantization steps for N = 256, 512 and 1024 respectively — so the wrap
boundary shows no discontinuity spike beyond the table's normal
sample-to-sample spacing. -/
theorem claim_C3_amended :
    wrapGap SINE_FULL_WAVE_256 ≤ maxAdjacentStep SINE_FULL_WAVE_256 ∧
    wrapGap SINE_FULL_WAVE_256 = 4 ∧
    wrapGap SINE_FULL_WAVE_512 ≤ maxAdjacentStep SINE_FULL_WAVE_512 ∧
    wrapGap SINE_FULL_WAVE_512 = 2 ∧
    wrapGap SINE_FULL_WAVE_1024 ≤ maxAdjacentStep SINE_FULL_WAVE_1024 ∧
    wrapGap SINE_FULL_WAVE_1024 = 1 := by
  refine ⟨by decide, by decide, by decide, by decide, by decide, by decide⟩

/-- Claim C4: each compiled-in table has exactly `N` entries for its
`N ∈ {256, 512, 1024}`, and every entry fits the 8-bit compare register:
`0 ≤ WaveformTable[i] ≤ 255` (the lower bound is inherent in the `Nat`
entries). -/
theorem claim_C4 :
    SINE_FULL_WAVE_256.length = 256 ∧
    SINE_FULL_WAVE_512.length = 512 ∧
    SINE_FULL_WAVE_1024.length = 1024 ∧
    (SINE_FULL_WAVE_256.all fun v => decide (v ≤ 255)) = true ∧
    (SINE_FULL_WAVE_512.all fun v => decide (v ≤ 255)) = true ∧
    (SINE_FULL_WAVE_1024.all fun v => decide (v ≤ 255)) = true := by
  refine ⟨by decide, by decide, by decide, by decide, by decide, by decide⟩

/-- Claim C6: the output frequency obeys
`frequency_hz = F_CPU / (PRESCALER * 256 * SAMPLE_COUNT)` for the 8-bit
timer, and at `F_CPU = 16 MHz` the three documented figures 244.14 Hz,
15.25 Hz and 0.06 Hz are each accurate to within 0.01 Hz (the exact values
are 244.140625 Hz, 15.2587890625 Hz and 0.059604644775390625 Hz). -/
theorem claim_C6 :
    (∀ p n : Nat, sineFreq F_CPU p n = (F_CPU : ℚ) / ((p : ℚ) * 256 * (n : ℚ))) ∧
    |sineFreq F_CPU 1 256 - 244.14| < 1 / 100 ∧
    |sineFreq F_CPU 8 512 - 15.25| < 1 / 100 ∧
    |sineFreq F_CPU 1024 1024 - 0.06| < 1 / 100 := by
  refine ⟨fun p n => by norm_num [sineFreq], ?_, ?_, ?_⟩ <;>
    rw [abs_lt] <;> constructor <;> norm_num [sineFreq, F_CPU]

/-- Claim C8: the `#if` chains accept exactly `SAMPLE_COUNT ∈ {256, 512, 1024}`
and `PRESCALER ∈ {1, 8, 32, 64, 128, 256, 1024}`; every other value produces
no compiled configuration (`none`, the `#error` build failure), so invalid
values never reach run time. -/
theorem claim_C8 :
    (∀ n : Nat, (tableFor n).isSome = true ↔ n = 256 ∨ n = 512 ∨ n = 1024) ∧
    (∀ p : Nat, (prescalerBits p).isSome = true ↔
      p = 1 ∨ p = 8 ∨ p = 32 ∨ p = 64 ∨ p = 128 ∨ p = 256 ∨ p = 1024) := by
  constructor
  · intro n
    unfold tableFor
    split_ifs <;> simp_all
  · intro p
    unfold prescalerBits
    split_ifs <;> simp_all

/-- Claim C9: the foreground `loop()` body is empty, so after `setup`
completes, any number of foreground iterations leaves the whole machine
state — in particular the phase index and the compare register — unchanged;
only the interrupt context mutates them. -/
theorem claim_C9 :
    ∀ (cs : Bool × Bool × Bool) (s : MachineState) (k : Nat),
      loopBody^[k] (setup cs s) = setup cs s ∧
      (loopBody^[k] (setup cs s)).i = (setup cs s).i ∧
      (loopBody^[k] (setup cs s)).OCR2A = (setup cs s).OCR2A := by
  have hid : ∀ (k : Nat) (m : MachineState), loopBody^[k] m = m := by
    intro k
    induction k with
    | zero =>
      intro m
      rfl
    | succ q ih =>
      intro m
      rw [Function.iterate_succ_apply]
      exact ih m
  intro cs s k
  exact ⟨hid k _, by rw [hid k], by rw [hid k]⟩

/-- Claim C5: every embedded table entry equals the rounded sine sample
`round(127.5 + 127.5 * sin(2 * pi * i / N))` for its `N ∈ {256, 512, 1024}` —
one full sine cycle scaled and offset into the 8-bit register's value
domain. -/
theorem claim_C5 :
    (∀ i, i < 256 →
      (SINE_FULL_WAVE_256.getD i 0 : ℤ) =
        round ((127.5 : ℝ) + 127.5 * Real.sin (2 * Real.pi * i / 256))) ∧
    (∀ i, i < 512 →
      (SINE_FULL_WAVE_512.getD i 0 : ℤ) =
        round ((127.5 : ℝ) + 127.5 * Real.sin (2 * Real.pi * i / 512))) ∧
    (∀ i, i < 1024 →
      (SINE_FULL_WAVE_1024.getD i 0 : ℤ) =
        round ((127.5 : ℝ) + 127.5 * Real.sin (2 * Real.pi * i / 1024))) := by
  have h256 : checkFrom 4 0 SINE_FULL_WAVE_256 = true := by decide
  have h512 : checkFrom 2 0 SINE_FULL_WAVE_512 = true := by decide
  have h1024 : checkFrom 1 0 SINE_FULL_WAVE_1024 = true := by decide
  have hl256 : SINE_FULL_WAVE_256.length = 256 := by decide
  have hl512 : SINE_FULL_WAVE_512.length = 512 := by decide
  have hl1024 : SINE_FULL_WAVE_1024.length = 1024 := by decide
  refine ⟨fun i hi => ?_, fun i hi => ?_, fun i hi => ?_⟩
  · have hk := checkFrom_sound h256 i (by omega)
    rw [Nat.zero_add] at hk
    have hr := checkEntry_sound (show 4 * i < 1024 by omega) hk
    have hang : Real.pi * ((4 * i : ℕ) : ℝ) / 512 = 2 * Real.pi * (i : ℝ) / 256 := by
      push_cast
      ring
    rw [hang] at hr
    exact hr
  · have hk := checkFrom_sound h512 i (by omega)
    rw [Nat.zero_add] at hk
    have hr := checkEntry_sound (show 2 * i < 1024 by omega) hk
    have hang : Real.pi * ((2 * i : ℕ) : ℝ) / 512 = 2 * Real.pi * (i : ℝ) / 512 := by
      push_cast
      ring
    rw [hang] at hr
    exact hr
  · have hk := checkFrom_sound h1024 i (by omega)
    rw [Nat.zero_add] at hk
    have hr := checkEntry_sound (show 1 * i < 1024 by omega) hk
    have hang : Real.pi * ((1 * i : ℕ) : ℝ) / 512 = 2 * Real.pi * (i : ℝ) / 1024 := by
      push_cast
      ring
    rw [hang] at hr
    exact hr

/-- Witness for C5: entry 3 of the 256-sample table is the rounded sine
sample at phase `2 * pi * 3 / 256`. -/
theorem claim_C5_witness :
    (SINE_FULL_WAVE_256.getD 3 0 : ℤ) =
      round ((127.5 : ℝ) + 127.5 * Real.sin (2 * Real.pi * ((3 : ℕ) : ℝ) / 256)) :=
  claim_C5.1 3 (by norm_num)

/-- Claim C7: the sampler is deterministic — any two runs over the same table
that start from the same phase index (the rest of the machine state may
differ arbitrarily) and perform the same number of invocations write the
same value sequence to the compare register and end at the same phase
index: the output is a pure function of the index. -/
theorem claim_C7 {t : List Nat} {mask : Nat} :
    ∀ {s s' s₁ s₂ : MachineState} {os₁ os₂ : List Nat},
      s.i = s'.i →
      IsrRunSeq t mask s os₁ s₁ → IsrRunSeq t mask s' os₂ s₂ →
      os₁.length = os₂.length → os₁ = os₂ ∧ s₁.i = s₂.i := by
  intro s s' s₁ s₂ os₁ os₂ hii h1
  revert hii
  induction h1 generalizing s' os₂ s₂ with
  | nil s0 =>
    intro hii h2 hlen
    cases h2 with
    | nil => exact ⟨rfl, hii⟩
    | cons hs hr => simp at hlen
  | @cons sa sb sc o os hs hr ih =>
    intro hii h2 hlen
    cases h2 with
    | nil => simp at hlen
    | @cons qa qb qc o2 os2 hs2 hr2 =>
      obtain ⟨ho, hb⟩ := isrStep_inv hs
      obtain ⟨ho2, hb2⟩ := isrStep_inv hs2
      have hout : o = o2 := by rw [ho, ho2, hii]
      have hnext : sb.i = qb.i := by
        rw [hb, hb2]
        show ((sa.i + 1) % 2 ^ 16) &&& mask = ((s'.i + 1) % 2 ^ 16) &&& mask
        rw [hii]
      obtain ⟨hos, hsf⟩ := ih hnext hr2 (by simpa using hlen)
      exact ⟨by rw [hout, hos], hsf⟩

/-- Witness for C7: two one-invocation runs from states that agree only on
the phase index — the reset state and a state with different compare,
control and direction registers — write the same value and reach the same
phase index. -/
theorem claim_C7_witness :
    ([128] : List Nat) = [128] ∧
    ({ i := 1, OCR2A := 128, TCCR2A := 131, TCCR2B := 1, TIMSK2 := 1, DDRB := 8 } : MachineState).i =
      ({ i := 1, OCR2A := 128, TCCR2A := 0, TCCR2B := 7, TIMSK2 := 0, DDRB := 0 } : MachineState).i := by
  have hstep1 : IsrStep SINE_FULL_WAVE_256 255 (initialState (false, false, true)) 128
      { i := 1, OCR2A := 128, TCCR2A := 131, TCCR2B := 1, TIMSK2 := 1, DDRB := 8 } :=
    IsrStep.step _ _ _ (by decide) (by decide)
  have hrun1 : IsrRunSeq SINE_FULL_WAVE_256 255 (initialState (false, false, true)) [128]
      { i := 1, OCR2A := 128, TCCR2A := 131, TCCR2B := 1, TIMSK2 := 1, DDRB := 8 } :=
    IsrRunSeq.cons hstep1 (IsrRunSeq.nil _)
  have hstep2 : IsrStep SINE_FULL_WAVE_256 255
      { i := 0, OCR2A := 42, TCCR2A := 0, TCCR2B := 7, TIMSK2 := 0, DDRB := 0 } 128
      { i := 1, OCR2A := 128, TCCR2A := 0, TCCR2B := 7, TIMSK2 := 0, DDRB := 0 } :=
    IsrStep.step _ _ _ (by decide) (by decide)
  have hrun2 : IsrRunSeq SINE_FULL_WAVE_256 255
      { i := 0, OCR2A := 42, TCCR2A := 0, TCCR2B := 7, TIMSK2 := 0, DDRB := 0 } [128]
      { i := 1, OCR2A := 128, TCCR2A := 0, TCCR2B := 7, TIMSK2 := 0, DDRB := 0 } :=
    IsrRunSeq.cons hstep2 (IsrRunSeq.nil _)
  exact claim_C7 (by decide) hrun1 hrun2 rfl

/-- Claim C10: from the initial index 0, the index at entry to the `k`-th
invocation is `k % SAMPLE_COUNT`, which lies in `[0, SAMPLE_COUNT)` and in
bounds of the table; the incremented `uint16_t` value `k % SAMPLE_COUNT + 1`
reaches at most `SAMPLE_COUNT` (no 16-bit wrap), and the mask restores the
invariant before the next table access. -/
theorem claim_C10 :
    ∀ tn ∈ [(SINE_FULL_WAVE_256, 256), (SINE_FULL_WAVE_512, 512), (SINE_FULL_WAVE_1024, 1024)],
    ∀ (cs : Bool × Bool × Bool) (k : Nat),
      (isrRun tn.1 (tn.2 - 1) (initialState cs) k).i = k % tn.2 ∧
      k % tn.2 < tn.2 ∧
      k % tn.2 < tn.1.length ∧
      k % tn.2 + 1 ≤ tn.2 ∧
      (k % tn.2 + 1) % 2 ^ 16 = k % tn.2 + 1 := by
  intro tn htn cs k
  simp only [List.mem_cons, List.not_mem_nil, or_false] at htn
  have main : ∀ (t : List Nat) (n : Nat), n = 256 ∨ n = 512 ∨ n = 1024 → t.length = n →
      (isrRun t (n - 1) (initialState cs) k).i = k % n ∧
      k % n < n ∧ k % n < t.length ∧ k % n + 1 ≤ n ∧ (k % n + 1) % 2 ^ 16 = k % n + 1 := by
    intro t n hn hlen
    have hpos : 0 < n := by rcases hn with rfl | rfl | rfl <;> omega
    have hbig : n ≤ 1024 := by rcases hn with rfl | rfl | rfl <;> omega
    have hmod : k % n < n := Nat.mod_lt _ hpos
    have h0 : (initialState cs).i = 0 := rfl
    have hrun := isrRun_i (t := t) hn k (initialState cs) (by rw [h0]; omega)
    rw [h0, Nat.zero_add] at hrun
    refine ⟨hrun, hmod, by omega, by omega, Nat.mod_eq_of_lt (by omega)⟩
  rcases htn with rfl | rfl | rfl
  · exact main _ 256 (by tauto) (by decide)
  · exact main _ 512 (by tauto) (by decide)
  · exact main _ 1024 (by tauto) (by decide)

/-- Witness for C10: after 300 invocations on the 256-sample table the index
is `300 % 256 = 44`, in bounds, and its transient incremented value does not
wrap the 16-bit counter. -/
theorem claim_C10_witness :
    (isrRun SINE_FULL_WAVE_256 255 (initialState (false, false, true)) 300).i = 300 % 256 ∧
    300 % 256 < 256 ∧
    300 % 256 < SINE_FULL_WAVE_256.length ∧
    300 % 256 + 1 ≤ 256 ∧
    (300 % 256 + 1) % 2 ^ 16 = 300 % 256 + 1 :=
  claim_C10 (SINE_FULL_WAVE_256, 256) (by simp) (false, false, true) 300
